import Mathlib

/-!
# go-lxc: the Go binding of liblxc (`lxc.go`)

A shallow embedding of `lxc.go` and the properties of its boundary
translation: string marshalling (`C.CString`, `C.GoString`), the newline
split of configuration values, argument vectors, the `State` stringer and
the timeout conversion.

Conventions of the embedding

* A Go `string` is a finite sequence of bytes (`GoStr`).
* A C `char *` is either `NULL` (`none`) or the bytes found in memory from
  the pointer onwards (`CBuf`); a C reader sees them up to the first NUL.
* The native library is a parameter (`Native W`): its entry points are
  functions on an explicit native world `W` (objects, disk, processes).
* A Go run-time panic is an `Except.error`.
* `C.free` and `defer` only release memory and have no observable result;
  they are left out.
-/

namespace Lxc

/-! ## Strings on both sides of the boundary -/

/-- One byte. -/
abbrev Byte := Fin 256

/-- A Go `string`: an immutable sequence of bytes. -/
abbrev GoStr := List Byte

/-- The bytes in C memory starting at a non-null `char *`. -/
abbrev CBuf := List Byte

/-- The NUL byte that ends a C string. -/
def NUL : Byte := 0

/-- The newline byte, the Go string `"\n"`. -/
def NL : Byte := 10

/-- The C string held by a buffer: its bytes before the first NUL (what
`strlen`-style readers see). -/
def cstr (buf : CBuf) : GoStr :=
  buf.takeWhile (fun b => b != NUL)

/-- `C.CString(s)`: a fresh buffer of `len(s)+1` bytes holding the bytes of
`s` followed by a NUL. -/
def CString (s : GoStr) : CBuf :=
  s ++ [NUL]

/-- `C.GoString(p)`: the empty string for a null pointer, otherwise a copy of
the bytes before the first NUL. -/
def GoString (p : Option CBuf) : GoStr :=
  match p with
  | none => []
  | some buf => cstr buf

/-- The bytes of a Go string literal (UTF-8). -/
def lit (s : String) : GoStr :=
  s.toUTF8.data.toList.map (fun b => b.val)

/-! ## `strings.Split` with a one-byte separator

`strings.Split(s, sep)` is `genSplit(s, sep, 0, -1)`.  For a separator of
length one, the only form that `lxc.go` uses (`"\n"`), `Count` is a byte
count and `Index` is `IndexByte`. -/

/-- `strings.IndexByte(s, c)`: position of the first `c` in `s`, `none` for
Go's `-1`. -/
def IndexByte : GoStr → Byte → Option Nat
  | [], _ => none
  | b :: bs, c => if b = c then some 0 else (IndexByte bs c).map (fun m => m + 1)

/-- `strings.Count(s, sep)` for a one-byte `sep`: the number of occurrences. -/
def Count : GoStr → Byte → Nat
  | [], _ => 0
  | b :: bs, c => (if b = c then 1 else 0) + Count bs c

/-- The loop of `genSplit`, run for at most `n` rounds:
`for i < n { m := Index(s, sep); if m < 0 { break }; a[i] = s[:m];
s = s[m+len(sep):]; i++ }; a[i] = s; return a[:i+1]`. -/
def genSplitLoop : Nat → GoStr → Byte → List GoStr
  | 0, s, _ => [s]
  | n + 1, s, c =>
    match IndexByte s c with
    | none => [s]
    | some m => s.take m :: genSplitLoop n (s.drop (m + 1)) c

/-- `strings.Split(s, sep)` for a one-byte `sep`:
`n = Count(s, sep) + 1; if n > len(s)+1 { n = len(s)+1 }; n--; loop`. -/
def Split (s : GoStr) (sep : Byte) : List GoStr :=
  let n := Count s sep + 1
  let n := if n > s.length + 1 then s.length + 1 else n
  genSplitLoop (n - 1) s sep

/-- `strings.Join(elems, sep)`: the elements with `sep` between neighbours. -/
def Join : List GoStr → GoStr → GoStr
  | [], _ => []
  | [a], _ => a
  | a :: b :: rest, sep => a ++ sep ++ Join (b :: rest) sep

/-! ## Integers -/

/-- Go `int` on a 64-bit platform: the integers a caller can pass. -/
def isGoInt (x : Int) : Prop := -2 ^ 63 ≤ x ∧ x < 2 ^ 63

instance (x : Int) : Decidable (isGoInt x) := by
  unfold isGoInt; exact inferInstance

/-- The conversion `C.int(x)` of a Go `int` to the 32-bit C `int`: the low 32
bits of `x`, read as a two's complement number. -/
def C_int (x : Int) : Int :=
  (x + 2 ^ 31) % 2 ^ 32 - 2 ^ 31

/-! ## Constants and `State` -/

/-- `type State int`. -/
abbrev State := Int

/-- `WAIT_FOREVER int = iota`, the first line of the const block. -/
def WAIT_FOREVER : Int := 0

/-- `DONT_WAIT`, the second line of the const block: `int = iota` repeated
with `iota = 1`. -/
def DONT_WAIT : Int := 1

/-- The state constants of the C header (`C.STOPPED` ... `C.MAX_STATE`), which
the const block re-exports unchanged.  The header belongs to liblxc, so the
values are a parameter. -/
structure StateConsts where
  STOPPED : Int
  STARTING : Int
  RUNNING : Int
  STOPPING : Int
  ABORTING : Int
  FREEZING : Int
  FROZEN : Int
  THAWED : Int
  MAX_STATE : Int

/-- The nine state constants are pairwise distinct (Go rejects a `switch`
with duplicate constant cases). -/
def StateConsts.Distinct (K : StateConsts) : Prop :=
  [K.STOPPED, K.STARTING, K.RUNNING, K.STOPPING, K.ABORTING, K.FREEZING, K.FROZEN,
    K.THAWED, K.MAX_STATE].Pairwise (fun a b => a ≠ b)

instance (K : StateConsts) : Decidable K.Distinct := by
  unfold StateConsts.Distinct; exact inferInstance

/-- The names of the nine known states, in the order of the const block. -/
def stateNames : List GoStr :=
  [lit "STOPPED", lit "STARTING", lit "RUNNING", lit "STOPPING", lit "ABORTING",
    lit "FREEZING", lit "FROZEN", lit "THAWED", lit "MAX_STATE"]

/-- `func (t State) String() string`: the first matching case of the switch,
`"<INVALID>"` when none matches. -/
def State.String (K : StateConsts) (t : State) : GoStr :=
  if t = K.STOPPED then lit "STOPPED"
  else if t = K.STARTING then lit "STARTING"
  else if t = K.RUNNING then lit "RUNNING"
  else if t = K.STOPPING then lit "STOPPING"
  else if t = K.ABORTING then lit "ABORTING"
  else if t = K.FREEZING then lit "FREEZING"
  else if t = K.FROZEN then lit "FROZEN"
  else if t = K.THAWED then lit "THAWED"
  else if t = K.MAX_STATE then lit "MAX_STATE"
  else lit "<INVALID>"

/-! ## Argument vectors -/

/-- `func makeArgs(args []string) []*C.char`: a slice of `len(args)` entries,
entry `i` being `C.CString(args[i])`.  An entry is a `char *`, so it could be
null (`none`); `makeArgs` only writes non-null ones. -/
def makeArgs (args : List GoStr) : List (Option CBuf) :=
  args.map (fun s => some (CString s))

/-! ## The native library -/

/-- The address of a native `struct lxc_container`. -/
abbrev Addr := Nat

/-- A `*C.struct_lxc_container`: `none` is the nil pointer. -/
abbrev Ptr := Option Addr

/-- A `char **` handed to the native library: `none` is `NULL`, `some v` points
at memory that holds exactly the entries `v`; nothing beyond them belongs
to the allocation. -/
abbrev Argv := Option (List (Option CBuf))

/-- The native side of the boundary over a native world `W`: the two fields of
`struct lxc_container` that `lxc.go` reads directly, `lxc_container_new`,
and the C wrappers declared in `lxc.h`.  Every entry point takes the world
and returns its result with the world it leaves behind.  The entry points
are total, also on a null container: a crash inside native code is outside
the embedding. -/
structure Native (W : Type) where
  name : W → Addr → Option CBuf
  daemonize : W → Addr → Int
  lxc_container_new : W → CBuf → Ptr × W
  container_defined : W → Ptr → Bool × W
  container_running : W → Ptr → Bool × W
  container_state : W → Ptr → Option CBuf × W
  container_init_pid : W → Ptr → Int × W
  container_want_daemonize : W → Ptr → W
  container_freeze : W → Ptr → Bool × W
  container_unfreeze : W → Ptr → Bool × W
  container_create : W → Ptr → CBuf → Argv → Bool × W
  container_start : W → Ptr → Int → Argv → Bool × W
  container_stop : W → Ptr → Bool × W
  container_shutdown : W → Ptr → Int → Bool × W
  container_destroy : W → Ptr → Bool × W
  container_wait : W → Ptr → CBuf → Int → Bool × W
  container_config_file_name : W → Ptr → Option CBuf × W
  container_get_config_item : W → Ptr → CBuf → Option CBuf × W
  container_set_config_item : W → Ptr → CBuf → CBuf → Bool × W
  container_clear_config_item : W → Ptr → CBuf → Bool × W
  container_get_keys : W → Ptr → CBuf → Option CBuf × W
  container_load_config : W → Ptr → CBuf → Bool × W
  container_save_config : W → Ptr → CBuf → Bool × W

/-! ## The container handle -/

/-- A Go run-time panic. -/
inductive GoPanic where
  | nilDereference
  | indexOutOfRange (index : Nat) (length : Nat)
  deriving DecidableEq, Repr

instance {α : Type} [DecidableEq α] : DecidableEq (Except GoPanic α) := fun x y =>
  match x, y with
  | .ok a, .ok b => if h : a = b then isTrue (by rw [h]) else isFalse (fun e => h (by cases e; rfl))
  | .error a, .error b =>
    if h : a = b then isTrue (by rw [h]) else isFalse (fun e => h (by cases e; rfl))
  | .ok _, .error _ => isFalse (fun e => by cases e)
  | .error _, .ok _ => isFalse (fun e => by cases e)

/-- `type Container struct { container *C.struct_lxc_container }`. -/
structure Container where
  container : Ptr
  deriving DecidableEq, Repr

variable {W : Type}

/-- `func NewContainer(name string) Container`. -/
def NewContainer (L : Native W) (w : W) (name : GoStr) : Container × W :=
  let cname := CString name
  let r := L.lxc_container_new w cname
  (Container.mk r.1, r.2)

/-- `func (c *Container) Name() string`: reads the field `name` through the
native pointer; a nil pointer makes the field access panic. -/
def Container.Name (L : Native W) (w : W) (c : Container) : Except GoPanic GoStr :=
  match c.container with
  | none => .error .nilDereference
  | some a => .ok (GoString (L.name w a))

/-- `func (c *Container) Defined() bool`. -/
def Container.Defined (L : Native W) (w : W) (c : Container) : Bool × W :=
  L.container_defined w c.container

/-- `func (c *Container) Running() bool`. -/
def Container.Running (L : Native W) (w : W) (c : Container) : Bool × W :=
  L.container_running w c.container

/-- `func (c *Container) State() string`. -/
def Container.State (L : Native W) (w : W) (c : Container) : GoStr × W :=
  let r := L.container_state w c.container
  (GoString r.1, r.2)

/-- `func (c *Container) InitPID() int`. -/
def Container.InitPID (L : Native W) (w : W) (c : Container) : Int × W :=
  L.container_init_pid w c.container

/-- `func (c *Container) Daemonize() bool`: reads the field `daemonize`
through the native pointer; a nil pointer makes the field access panic. -/
def Container.Daemonize (L : Native W) (w : W) (c : Container) : Except GoPanic Bool :=
  match c.container with
  | none => .error .nilDereference
  | some a => .ok (decide (L.daemonize w a ≠ 0))

/-- `func (c *Container) SetDaemonize()`. -/
def Container.SetDaemonize (L : Native W) (w : W) (c : Container) : W :=
  L.container_want_daemonize w c.container

/-- `func (c *Container) Freeze() bool`. -/
def Container.Freeze (L : Native W) (w : W) (c : Container) : Bool × W :=
  L.container_freeze w c.container

/-- `func (c *Container) Unfreeze() bool`. -/
def Container.Unfreeze (L : Native W) (w : W) (c : Container) : Bool × W :=
  L.container_unfreeze w c.container

/-- The expression `&cargs[0]`: the address of the first entry of the slice;
indexing an empty slice panics. -/
def addrOfFirst (cargs : List (Option CBuf)) : Except GoPanic Argv :=
  match cargs with
  | [] => .error (.indexOutOfRange 0 0)
  | _ :: _ => .ok (some cargs)

/-- `func (c *Container) Create(template string, args []string) bool`; a nil
slice is `none`. -/
def Container.Create (L : Native W) (w : W) (c : Container) (template : GoStr)
    (args : Option (List GoStr)) : Except GoPanic (Bool × W) :=
  let ctemplate := CString template
  match args with
  | some a =>
    let cargs := makeArgs a
    match addrOfFirst cargs with
    | .error e => .error e
    | .ok p => .ok (L.container_create w c.container ctemplate p)
  | none => .ok (L.container_create w c.container ctemplate none)

/-- `func (c *Container) Start(useinit bool, args []string) bool`. -/
def Container.Start (L : Native W) (w : W) (c : Container) (useinit : Bool)
    (args : Option (List GoStr)) : Except GoPanic (Bool × W) :=
  let cuseinit : Int := if useinit then 1 else 0
  match args with
  | some a =>
    let cargs := makeArgs a
    match addrOfFirst cargs with
    | .error e => .error e
    | .ok p => .ok (L.container_start w c.container (C_int cuseinit) p)
  | none => .ok (L.container_start w c.container (C_int cuseinit) none)

/-- `func (c *Container) Stop() bool`. -/
def Container.Stop (L : Native W) (w : W) (c : Container) : Bool × W :=
  L.container_stop w c.container

/-- `func (c *Container) Shutdown(timeout int) bool`. -/
def Container.Shutdown (L : Native W) (w : W) (c : Container) (timeout : Int) : Bool × W :=
  L.container_shutdown w c.container (C_int timeout)

/-- `func (c *Container) Destroy() bool`. -/
def Container.Destroy (L : Native W) (w : W) (c : Container) : Bool × W :=
  L.container_destroy w c.container

/-- `func (c *Container) Wait(state State, timeout int) bool`. -/
def Container.Wait (L : Native W) (K : StateConsts) (w : W) (c : Container) (state : Lxc.State)
    (timeout : Int) : Bool × W :=
  let cstate := CString (State.String K state)
  L.container_wait w c.container cstate (C_int timeout)

/-- `func (c *Container) ConfigFileName() string`. -/
def Container.ConfigFileName (L : Native W) (w : W) (c : Container) : GoStr × W :=
  let r := L.container_config_file_name w c.container
  (GoString r.1, r.2)

/-- `func (c *Container) GetConfigItem(key string) []string`. -/
def Container.GetConfigItem (L : Native W) (w : W) (c : Container) (key : GoStr) :
    List GoStr × W :=
  let ckey := CString key
  let r := L.container_get_config_item w c.container ckey
  (Split (GoString r.1) NL, r.2)

/-- `func (c *Container) SetConfigItem(key string, value string) bool`. -/
def Container.SetConfigItem (L : Native W) (w : W) (c : Container) (key : GoStr)
    (value : GoStr) : Bool × W :=
  let ckey := CString key
  let cvalue := CString value
  L.container_set_config_item w c.container ckey cvalue

/-- `func (c *Container) ClearConfigItem(key string) bool`. -/
def Container.ClearConfigItem (L : Native W) (w : W) (c : Container) (key : GoStr) :
    Bool × W :=
  L.container_clear_config_item w c.container (CString key)

/-- `func (c *Container) GetKeys(key string) []string`. -/
def Container.GetKeys (L : Native W) (w : W) (c : Container) (key : GoStr) :
    List GoStr × W :=
  let ckey := CString key
  let r := L.container_get_keys w c.container ckey
  (Split (GoString r.1) NL, r.2)

/-- `func (c *Container) LoadConfig(path string) bool`. -/
def Container.LoadConfig (L : Native W) (w : W) (c : Container) (path : GoStr) : Bool × W :=
  L.container_load_config w c.container (CString path)

/-- `func (c *Container) SaveConfig(path string) bool`. -/
def Container.SaveConfig (L : Native W) (w : W) (c : Container) (path : GoStr) : Bool × W :=
  L.container_save_config w c.container (CString path)

/-! ## How the native side reads an argument vector -/

/-- A native reader of a `char **` walks the entries up to the first null one
and takes each entry as a C string.  The result is `none` when the walk
reaches the end of the allocation without meeting a null entry: the reader
is then past the memory it was given. -/
def readArgv : List (Option CBuf) → Option (List GoStr)
  | [] => none
  | none :: _ => some []
  | some buf :: rest => (readArgv rest).map (fun l => cstr buf :: l)

/-! ## Concrete instances used to run the binding -/

/-- The values of the state enumeration in liblxc's header:
`STOPPED, STARTING, RUNNING, STOPPING, ABORTING, FREEZING, FROZEN, THAWED,
MAX_STATE` numbered from zero. -/
def lxcStates : StateConsts :=
  { STOPPED := 0, STARTING := 1, RUNNING := 2, STOPPING := 3, ABORTING := 4,
    FREEZING := 5, FROZEN := 6, THAWED := 7, MAX_STATE := 8 }

/-- The world of the sample native library `sim`: the name buffers of the
objects allocated so far (the address of an object is its position), the
configuration as key and value pairs, newest first, and the timeouts
received by `container_shutdown` and `container_wait`, newest first. -/
structure SimWorld where
  objects : List CBuf
  config : List (GoStr × GoStr)
  timeouts : List Int
  deriving DecidableEq, Repr

/-- The initial world: nothing allocated, nothing configured. -/
def SimWorld.init : SimWorld :=
  { objects := [], config := [], timeouts := [] }

/-- A sample native library, used to run the binding on concrete inputs.  It
refuses to allocate a container with an empty name, keeps a copy of the name
it is given, stores configuration values verbatim under their key, and
records every timeout it receives. -/
def sim : Native SimWorld where
  name w a := w.objects.get? a
  daemonize _ _ := 0
  lxc_container_new w cname :=
    if cstr cname = [] then (none, w)
    else (some w.objects.length, { w with objects := w.objects ++ [CString (cstr cname)] })
  container_defined w _ := (false, w)
  container_running w _ := (false, w)
  container_state w _ := (some (CString (lit "STOPPED")), w)
  container_init_pid w _ := (-1, w)
  container_want_daemonize w _ := w
  container_freeze w _ := (false, w)
  container_unfreeze w _ := (false, w)
  container_create w _ _ _ := (false, w)
  container_start w _ _ _ := (false, w)
  container_stop w _ := (false, w)
  container_shutdown w _ t := (true, { w with timeouts := t :: w.timeouts })
  container_destroy w _ := (false, w)
  container_wait w _ _ t := (true, { w with timeouts := t :: w.timeouts })
  container_config_file_name w _ := (none, w)
  container_get_config_item w _ ckey := ((w.config.lookup (cstr ckey)).map CString, w)
  container_set_config_item w _ ckey cvalue :=
    (true, { w with config := (cstr ckey, cstr cvalue) :: w.config })
  container_clear_config_item w _ _ := (false, w)
  container_get_keys w _ _ := (none, w)
  container_load_config w _ _ := (false, w)
  container_save_config w _ _ := (false, w)

/-- A handle on the sample library: the container `c1`, with the world its
allocation leaves behind. -/
def simHandle : Container × SimWorld :=
  NewContainer sim SimWorld.init (lit "c1")

/-! ## Properties named by the specification -/

/-- The native library persists a value verbatim: after `set` of the C string
in `cvalue` under `ckey`, `get` of `ckey` returns a C string with exactly
the same bytes. -/
def PersistsVerbatim (L : Native W) (w : W) (p : Ptr) (ckey cvalue : CBuf) : Prop :=
  GoString (L.container_get_config_item (L.container_set_config_item w p ckey cvalue).2 p ckey).1
    = cstr cvalue

instance (L : Native W) (w : W) (p : Ptr) (ckey cvalue : CBuf) :
    Decidable (PersistsVerbatim L w p ckey cvalue) := by
  unfold PersistsVerbatim; exact inferInstance

/-- The sequence `r` is the lossless newline split of the string `s`: one
element more than there are newlines, no newline inside an element, and the
elements joined by a newline give `s` back; a string without newline is
its own single element, and a string ending in a newline has an empty last
element. -/
def LosslessSplit (s : GoStr) (r : List GoStr) : Prop :=
  r.length = s.count NL + 1 ∧ (∀ e ∈ r, NL ∉ e) ∧ Join r [NL] = s ∧
    (NL ∉ s → r = [s]) ∧ (∀ t, s = t ++ [NL] → r.getLast? = some [])

/-- The known state values, in the order of the const block. -/
def StateConsts.known (K : StateConsts) : List State :=
  [K.STOPPED, K.STARTING, K.RUNNING, K.STOPPING, K.ABORTING, K.FREEZING, K.FROZEN,
    K.THAWED, K.MAX_STATE]

/-! ## Lemmas on C strings -/

theorem cstr_append_NUL (s rest : GoStr) (h : NUL ∉ s) : cstr (s ++ NUL :: rest) = s := by
  induction s with
  | nil => simp [cstr]
  | cons b bs ih =>
    have hb : b ≠ NUL := fun e => h (by simp [e])
    have hbs : NUL ∉ bs := fun e => h (by simp [e])
    simp [cstr, hb] at ih ⊢
    exact ih hbs

theorem cstr_CString (s : GoStr) (h : NUL ∉ s) : cstr (CString s) = s :=
  cstr_append_NUL s [] h

theorem NUL_not_mem_cstr (buf : CBuf) : NUL ∉ cstr buf := by
  intro h
  have := List.mem_takeWhile_imp h
  simp at this

theorem cstr_eq_self_iff (s : GoStr) : cstr (CString s) = s ↔ NUL ∉ s := by
  constructor
  · intro h
    rw [← h]
    exact NUL_not_mem_cstr _
  · exact cstr_CString s

/-! ## Lemmas on `IndexByte`, `Count` and the split loop -/

theorem IndexByte_eq_none (s : GoStr) (c : Byte) : IndexByte s c = none ↔ c ∉ s := by
  induction s with
  | nil => simp [IndexByte]
  | cons b bs ih =>
    by_cases hb : b = c
    · simp [IndexByte, hb]
    · have hc : ¬ c = b := fun e => hb e.symm
      simp [IndexByte, hb, hc, ih]

theorem IndexByte_eq_some (s : GoStr) (c : Byte) (m : Nat) (h : IndexByte s c = some m) :
    s = s.take m ++ c :: s.drop (m + 1) ∧ c ∉ s.take m := by
  induction s generalizing m with
  | nil => simp [IndexByte] at h
  | cons b bs ih =>
    by_cases hb : b = c
    · simp [IndexByte, hb] at h
      subst h
      simp [hb]
    · simp only [IndexByte, hb, if_false, Option.map_eq_some'] at h
      obtain ⟨k, hk, rfl⟩ := h
      have hc : ¬ c = b := fun e => hb e.symm
      obtain ⟨h1, h2⟩ := ih k hk
      refine ⟨?_, ?_⟩
      · simp only [List.take_succ_cons, List.drop_succ_cons, List.cons_append]
        rw [← h1]
      · simp [hc, h2]

theorem Count_eq_zero (s : GoStr) (c : Byte) (h : c ∉ s) : Count s c = 0 := by
  induction s with
  | nil => rfl
  | cons b bs ih =>
    have hb : ¬ b = c := fun e => h (by simp [e])
    have hbs : c ∉ bs := fun e => h (by simp [e])
    simp [Count, hb, ih hbs]

theorem Count_append (s t : GoStr) (c : Byte) : Count (s ++ t) c = Count s c + Count t c := by
  induction s with
  | nil => simp [Count]
  | cons b bs ih => simp [Count, ih]; omega

theorem Count_le_length (s : GoStr) (c : Byte) : Count s c ≤ s.length := by
  induction s with
  | nil => simp [Count]
  | cons b bs ih =>
    simp only [Count, List.length_cons]
    split <;> omega

theorem Count_of_IndexByte (s : GoStr) (c : Byte) (m : Nat) (h : IndexByte s c = some m) :
    Count s c = Count (s.drop (m + 1)) c + 1 := by
  obtain ⟨h1, h2⟩ := IndexByte_eq_some s c m h
  conv_lhs => rw [h1]
  rw [Count_append, Count_eq_zero _ _ h2]
  simp [Count]
  omega

theorem genSplitLoop_length (n : Nat) (s : GoStr) (c : Byte) (h : Count s c ≤ n) :
    (genSplitLoop n s c).length = Count s c + 1 := by
  induction n generalizing s with
  | zero =>
    have : Count s c = 0 := by omega
    simp [genSplitLoop, this]
  | succ n ih =>
    unfold genSplitLoop
    cases hi : IndexByte s c with
    | none =>
      have := Count_eq_zero s c ((IndexByte_eq_none s c).1 hi)
      simp [this]
    | some m =>
      have hc := Count_of_IndexByte s c m hi
      simp only [List.length_cons]
      rw [ih _ (by omega), hc]

theorem genSplitLoop_join (n : Nat) (s : GoStr) (c : Byte) (h : Count s c ≤ n) :
    Join (genSplitLoop n s c) [c] = s := by
  induction n generalizing s with
  | zero => simp [genSplitLoop, Join]
  | succ n ih =>
    unfold genSplitLoop
    cases hi : IndexByte s c with
    | none => simp [Join]
    | some m =>
      have hc := Count_of_IndexByte s c m hi
      have hrec := ih (s.drop (m + 1)) (by omega)
      obtain ⟨h1, _⟩ := IndexByte_eq_some s c m hi
      simp only []
      cases hg : genSplitLoop n (List.drop (m + 1) s) c with
      | nil =>
        have := genSplitLoop_length n (s.drop (m + 1)) c (by omega)
        simp [hg] at this
      | cons e es =>
        rw [hg] at hrec
        simp only [Join, hrec, List.append_assoc, List.singleton_append]
        exact h1.symm

theorem genSplitLoop_no_sep (n : Nat) (s : GoStr) (c : Byte) (h : Count s c ≤ n) :
    ∀ e ∈ genSplitLoop n s c, c ∉ e := by
  induction n generalizing s with
  | zero =>
    intro e he
    simp only [genSplitLoop, List.mem_singleton] at he
    subst he
    intro hmem
    have hne : IndexByte e c ≠ none := fun hn => (IndexByte_eq_none e c).1 hn hmem
    cases hi : IndexByte e c with
    | none => exact hne hi
    | some m =>
      have := Count_of_IndexByte e c m hi
      omega
  | succ n ih =>
    intro e he
    unfold genSplitLoop at he
    cases hi : IndexByte s c with
    | none =>
      simp only [hi, List.mem_singleton] at he
      subst he
      exact (IndexByte_eq_none e c).1 hi
    | some m =>
      have hc := Count_of_IndexByte s c m hi
      obtain ⟨_, h2⟩ := IndexByte_eq_some s c m hi
      simp only [hi, List.mem_cons] at he
      rcases he with rfl | he
      · exact h2
      · exact ih _ (by omega) e he

theorem genSplitLoop_bytes (n : Nat) (s : GoStr) (c : Byte) :
    ∀ e ∈ genSplitLoop n s c, ∀ b ∈ e, b ∈ s := by
  induction n generalizing s with
  | zero =>
    intro e he b hb
    simp only [genSplitLoop, List.mem_singleton] at he
    subst he
    exact hb
  | succ n ih =>
    intro e he b hb
    unfold genSplitLoop at he
    cases hi : IndexByte s c with
    | none =>
      simp only [hi, List.mem_singleton] at he
      subst he
      exact hb
    | some m =>
      simp only [hi, List.mem_cons] at he
      rcases he with rfl | he
      · exact List.mem_of_mem_take hb
      · exact List.mem_of_mem_drop (ih _ e he b hb)

/-! ## Lemmas on `Split` -/

theorem Split_eq_loop (s : GoStr) (c : Byte) : Split s c = genSplitLoop (Count s c) s c := by
  have := Count_le_length s c
  unfold Split
  simp only []
  rw [if_neg (by omega)]
  rfl

theorem Split_length (s : GoStr) (c : Byte) : (Split s c).length = Count s c + 1 := by
  rw [Split_eq_loop]
  exact genSplitLoop_length _ s c (Nat.le_refl _)

theorem Split_ne_nil (s : GoStr) (c : Byte) : Split s c ≠ [] := by
  intro h
  have := Split_length s c
  simp [h] at this

theorem Split_join (s : GoStr) (c : Byte) : Join (Split s c) [c] = s := by
  rw [Split_eq_loop]
  exact genSplitLoop_join _ s c (Nat.le_refl _)

theorem Split_no_sep (s : GoStr) (c : Byte) : ∀ e ∈ Split s c, c ∉ e := by
  rw [Split_eq_loop]
  exact genSplitLoop_no_sep _ s c (Nat.le_refl _)

theorem Split_bytes (s : GoStr) (c : Byte) : ∀ e ∈ Split s c, ∀ b ∈ e, b ∈ s := by
  rw [Split_eq_loop]
  exact genSplitLoop_bytes _ s c

theorem Split_of_not_mem (s : GoStr) (c : Byte) (h : c ∉ s) : Split s c = [s] := by
  rw [Split_eq_loop, Count_eq_zero s c h]
  rfl

theorem Split_eq_singleton_nil (s : GoStr) (c : Byte) : Split s c = [[]] ↔ s = [] := by
  constructor
  · intro h
    have := Split_join s c
    rw [h] at this
    simpa [Join] using this.symm
  · rintro rfl
    rfl

theorem Count_eq_count (s : GoStr) (c : Byte) : Count s c = s.count c := by
  induction s with
  | nil => rfl
  | cons b bs ih =>
    by_cases hb : b = c
    · simp [Count, hb, ih]; omega
    · simp [Count, hb, ih, List.count_cons]

theorem genSplitLoop_getLast (n : Nat) (t : GoStr) (c : Byte) (h : Count (t ++ [c]) c ≤ n) :
    (genSplitLoop n (t ++ [c]) c).getLast? = some [] := by
  induction n generalizing t with
  | zero =>
    rw [Count_append] at h
    simp [Count] at h
  | succ n ih =>
    unfold genSplitLoop
    cases hi : IndexByte (t ++ [c]) c with
    | none =>
      have := (IndexByte_eq_none _ c).1 hi
      simp at this
    | some m =>
      have hc := Count_of_IndexByte _ c m hi
      obtain ⟨h1, _⟩ := IndexByte_eq_some _ c m hi
      have hlen := congrArg List.length h1
      simp only [List.length_append, List.length_cons, List.length_nil, List.length_take,
        List.length_drop] at hlen
      have hm : m ≤ t.length := by omega
      simp only []
      rcases Nat.lt_or_ge m t.length with hlt | hge
      · have hd : List.drop (m + 1) (t ++ [c]) = List.drop (m + 1) t ++ [c] :=
          List.drop_append_of_le_length (by omega)
        rw [hd] at hc ⊢
        have hrec := ih (List.drop (m + 1) t) (by omega)
        cases hg : genSplitLoop n (List.drop (m + 1) t ++ [c]) c with
        | nil => rw [hg] at hrec; simp at hrec
        | cons e es =>
          rw [hg] at hrec
          rw [List.getLast?_cons_cons]
          exact hrec
      · have hd : List.drop (m + 1) (t ++ [c]) = [] := by
          apply List.drop_eq_nil_of_le
          simp only [List.length_append, List.length_cons, List.length_nil]
          omega
        rw [hd]
        cases n <;> simp [genSplitLoop, IndexByte]

theorem Split_lossless (s : GoStr) : LosslessSplit s (Split s NL) := by
  refine ⟨?_, Split_no_sep s NL, Split_join s NL, Split_of_not_mem s NL, ?_⟩
  · rw [Split_length, Count_eq_count]
  · rintro t rfl
    rw [Split_eq_loop]
    exact genSplitLoop_getLast _ t NL (Nat.le_refl _)

/-! ## C1: set followed by get -/

/-- C1, as stated, fails: the sample library persists the value `"a\nb"`
verbatim under the key `"k"`, yet `GetConfigItem` after `SetConfigItem` returns
`["a", "b"]`, which does not have `"a\nb"` among its elements. -/
theorem SetConfigItem_GetConfigItem_newline_counterexample :
    PersistsVerbatim sim simHandle.2 simHandle.1.container (CString (lit "k"))
        (CString (lit "a\nb")) ∧
      (Container.GetConfigItem sim
        (Container.SetConfigItem sim simHandle.2 simHandle.1 (lit "k") (lit "a\nb")).2
        simHandle.1 (lit "k")).1 = [lit "a", lit "b"] ∧
      lit "a\nb" ∉ (Container.GetConfigItem sim
        (Container.SetConfigItem sim simHandle.2 simHandle.1 (lit "k") (lit "a\nb")).2
        simHandle.1 (lit "k")).1 := by
  decide

/-- C1, amended: when the native library persists the value verbatim,
`SetConfigItem(key, v)` followed by `GetConfigItem(key)` returns the newline
split of `v` cut at its first NUL; it has `v` among its elements exactly when
`v` contains neither a newline nor a NUL byte, and then it is `[v]`. -/
theorem SetConfigItem_GetConfigItem_roundtrip (L : Native W) (w : W) (c : Container)
    (key v : GoStr)
    (h : PersistsVerbatim L w c.container (CString key) (CString v)) :
    (Container.GetConfigItem L (Container.SetConfigItem L w c key v).2 c key).1
        = Split (cstr (CString v)) NL ∧
      (v ∈ (Container.GetConfigItem L (Container.SetConfigItem L w c key v).2 c key).1
        ↔ (NL ∉ v ∧ NUL ∉ v)) ∧
      ((NL ∉ v ∧ NUL ∉ v) →
        (Container.GetConfigItem L (Container.SetConfigItem L w c key v).2 c key).1 = [v]) := by
  have hres : (Container.GetConfigItem L (Container.SetConfigItem L w c key v).2 c key).1
      = Split (cstr (CString v)) NL := by
    unfold PersistsVerbatim at h
    simp only [Container.GetConfigItem, Container.SetConfigItem]
    rw [h]
  have hone : (NL ∉ v ∧ NUL ∉ v) → Split (cstr (CString v)) NL = [v] := by
    rintro ⟨hnl, hnul⟩
    rw [cstr_CString v hnul]
    exact Split_of_not_mem v NL hnl
  refine ⟨hres, ?_, ?_⟩
  · rw [hres]
    constructor
    · intro hv
      refine ⟨Split_no_sep _ NL v hv, ?_⟩
      intro hnul
      exact NUL_not_mem_cstr _ (Split_bytes _ NL v hv NUL hnul)
    · intro hv
      rw [hone hv]
      exact List.mem_singleton_self v
  · intro hv
    rw [hres]
    exact hone hv

/-- C1, amended, on the sample library: `"veth"` set under `"lxc.network.type"`
comes back as the one-element sequence `["veth"]`. -/
theorem SetConfigItem_GetConfigItem_roundtrip_witness :
    PersistsVerbatim sim simHandle.2 simHandle.1.container (CString (lit "lxc.network.type"))
        (CString (lit "veth")) ∧
      (NL ∉ lit "veth" ∧ NUL ∉ lit "veth") ∧
      (Container.GetConfigItem sim
        (Container.SetConfigItem sim simHandle.2 simHandle.1 (lit "lxc.network.type")
          (lit "veth")).2 simHandle.1 (lit "lxc.network.type")).1 = [lit "veth"] :=
  ⟨by decide, by decide,
    (SetConfigItem_GetConfigItem_roundtrip sim simHandle.2 simHandle.1
      (lit "lxc.network.type") (lit "veth") (by decide)).2.2 (by decide)⟩

/-! ## C2: the result of a retrieval is never empty -/

/-- C2: `GetConfigItem(key)` and `GetKeys(key)` never return an empty sequence,
whatever the native library returns, and for a null or empty native string
the result is exactly the one-element sequence holding the empty string. -/
theorem GetConfigItem_GetKeys_nonempty (L : Native W) (w : W) (c : Container) (key : GoStr) :
    (Container.GetConfigItem L w c key).1 ≠ [] ∧
      (Container.GetKeys L w c key).1 ≠ [] ∧
      (((L.container_get_config_item w c.container (CString key)).1 = none ∨
          ∃ buf, (L.container_get_config_item w c.container (CString key)).1 = some buf ∧
            cstr buf = []) →
        (Container.GetConfigItem L w c key).1 = [[]]) ∧
      (((L.container_get_keys w c.container (CString key)).1 = none ∨
          ∃ buf, (L.container_get_keys w c.container (CString key)).1 = some buf ∧
            cstr buf = []) →
        (Container.GetKeys L w c key).1 = [[]]) := by
  refine ⟨Split_ne_nil _ _, Split_ne_nil _ _, ?_, ?_⟩
  · intro h
    simp only [Container.GetConfigItem]
    rw [Split_eq_singleton_nil]
    rcases h with h | ⟨buf, h, hb⟩
    · rw [h]; rfl
    · rw [h]; exact hb
  · intro h
    simp only [Container.GetKeys]
    rw [Split_eq_singleton_nil]
    rcases h with h | ⟨buf, h, hb⟩
    · rw [h]; rfl
    · rw [h]; exact hb

/-- C2 on the sample library: a key that was never set, for which the native
get returns a null string, is retrieved as the one-element sequence `[""]`. -/
theorem GetConfigItem_GetKeys_nonempty_witness :
    (sim.container_get_config_item simHandle.2 simHandle.1.container
        (CString (lit "lxc.utsname"))).1 = none ∧
      (Container.GetConfigItem sim simHandle.2 simHandle.1 (lit "lxc.utsname")).1 = [[]] :=
  ⟨by decide,
    (GetConfigItem_GetKeys_nonempty sim simHandle.2 simHandle.1 (lit "lxc.utsname")).2.2.1
      (Or.inl (by decide))⟩

/-! ## C3: a handle without a native object -/

/-- C3, as stated, fails: the sample library does not allocate a container
for the empty name, `NewContainer` wraps the nil reference, and on that
handle `Name()` and `Daemonize()` panic with a nil dereference. -/
theorem NewContainer_nil_handle_counterexample :
    (NewContainer sim SimWorld.init []).1.container = none ∧
      Container.Name sim (NewContainer sim SimWorld.init []).2
        (NewContainer sim SimWorld.init []).1 = .error .nilDereference ∧
      Container.Daemonize sim (NewContainer sim SimWorld.init []).2
        (NewContainer sim SimWorld.init []).1 = .error .nilDereference := by
  decide

/-- C3, amended: on a handle returned by `NewContainer` when the native
library could not allocate a container object, `Name()` and `Daemonize()`
panic with a nil dereference, and each of the twenty other operations
(`Defined`, `Running`, `State`, `InitPID`, `SetDaemonize`, `Freeze`,
`Unfreeze`, `Create`, `Start`, `Stop`, `Shutdown`, `Destroy`, `Wait`,
`ConfigFileName`, `GetConfigItem`, `SetConfigItem`, `ClearConfigItem`,
`GetKeys`, `LoadConfig`, `SaveConfig`) hands the nil reference unchecked to
its native entry point and translates the native result as on any other
handle; for `Create` and `Start` this is stated for a nil `args` and for a
non-empty `args`. -/
theorem NewContainer_nil_handle (L : Native W) (K : StateConsts) (w : W) (name : GoStr)
    (h : (L.lxc_container_new w (CString name)).1 = none) :
    Container.Name L (NewContainer L w name).2 (NewContainer L w name).1
        = .error .nilDereference ∧
      Container.Daemonize L (NewContainer L w name).2 (NewContainer L w name).1
        = .error .nilDereference ∧
      (∀ w1, Container.Defined L w1 (NewContainer L w name).1 = L.container_defined w1 none) ∧
      (∀ w1, Container.Running L w1 (NewContainer L w name).1 = L.container_running w1 none) ∧
      (∀ w1, Container.State L w1 (NewContainer L w name).1
        = (GoString (L.container_state w1 none).1, (L.container_state w1 none).2)) ∧
      (∀ w1, Container.InitPID L w1 (NewContainer L w name).1
        = L.container_init_pid w1 none) ∧
      (∀ w1, Container.SetDaemonize L w1 (NewContainer L w name).1
        = L.container_want_daemonize w1 none) ∧
      (∀ w1, Container.Freeze L w1 (NewContainer L w name).1 = L.container_freeze w1 none) ∧
      (∀ w1, Container.Unfreeze L w1 (NewContainer L w name).1
        = L.container_unfreeze w1 none) ∧
      (∀ w1 template, Container.Create L w1 (NewContainer L w name).1 template none
        = .ok (L.container_create w1 none (CString template) none)) ∧
      (∀ w1 template a args,
        Container.Create L w1 (NewContainer L w name).1 template (some (a :: args))
        = .ok (L.container_create w1 none (CString template) (some (makeArgs (a :: args))))) ∧
      (∀ w1 useinit, Container.Start L w1 (NewContainer L w name).1 useinit none
        = .ok (L.container_start w1 none (C_int (if useinit then 1 else 0)) none)) ∧
      (∀ w1 useinit a args,
        Container.Start L w1 (NewContainer L w name).1 useinit (some (a :: args))
        = .ok (L.container_start w1 none (C_int (if useinit then 1 else 0))
            (some (makeArgs (a :: args))))) ∧
      (∀ w1, Container.Stop L w1 (NewContainer L w name).1 = L.container_stop w1 none) ∧
      (∀ w1 t, Container.Shutdown L w1 (NewContainer L w name).1 t
        = L.container_shutdown w1 none (C_int t)) ∧
      (∀ w1, Container.Destroy L w1 (NewContainer L w name).1 = L.container_destroy w1 none) ∧
      (∀ w1 state t, Container.Wait L K w1 (NewContainer L w name).1 state t
        = L.container_wait w1 none (CString (State.String K state)) (C_int t)) ∧
      (∀ w1, Container.ConfigFileName L w1 (NewContainer L w name).1
        = (GoString (L.container_config_file_name w1 none).1,
            (L.container_config_file_name w1 none).2)) ∧
      (∀ w1 key, Container.GetConfigItem L w1 (NewContainer L w name).1 key
        = (Split (GoString (L.container_get_config_item w1 none (CString key)).1) NL,
            (L.container_get_config_item w1 none (CString key)).2)) ∧
      (∀ w1 key value, Container.SetConfigItem L w1 (NewContainer L w name).1 key value
        = L.container_set_config_item w1 none (CString key) (CString value)) ∧
      (∀ w1 key, Container.ClearConfigItem L w1 (NewContainer L w name).1 key
        = L.container_clear_config_item w1 none (CString key)) ∧
      (∀ w1 key, Container.GetKeys L w1 (NewContainer L w name).1 key
        = (Split (GoString (L.container_get_keys w1 none (CString key)).1) NL,
            (L.container_get_keys w1 none (CString key)).2)) ∧
      (∀ w1 path, Container.LoadConfig L w1 (NewContainer L w name).1 path
        = L.container_load_config w1 none (CString path)) ∧
      (∀ w1 path, Container.SaveConfig L w1 (NewContainer L w name).1 path
        = L.container_save_config w1 none (CString path)) := by
  have hc : (NewContainer L w name).1 = Container.mk none := by
    simp only [NewContainer, h]
  rw [hc]
  refine ⟨rfl, rfl, ?_, ?_, ?_, ?_, ?_, ?_, ?_, ?_, ?_, ?_, ?_, ?_, ?_, ?_, ?_, ?_, ?_, ?_, ?_,
    ?_, ?_, ?_⟩ <;> intros <;> rfl

/-- C3, amended, on the sample library, which allocates nothing for the
empty name. -/
theorem NewContainer_nil_handle_witness :
    (sim.lxc_container_new SimWorld.init (CString [])).1 = none ∧
      Container.Name sim (NewContainer sim SimWorld.init []).2
        (NewContainer sim SimWorld.init []).1 = .error .nilDereference :=
  ⟨by decide, (NewContainer_nil_handle sim lxcStates SimWorld.init [] (by decide)).1⟩

/-! ## C4 and C5: argument vectors -/

/-- C4 fails on the code: for a non-nil empty `args`, `Create` and `Start`
panic with an index out of range at `&cargs[0]`, whatever the native library,
the handle, the template and `useinit` are; for a nil `args` and for a
non-empty `args` they return the native boolean. -/
theorem Create_Start_empty_args_panic (L : Native W) (w : W) (c : Container)
    (template : GoStr) (useinit : Bool) :
    Container.Create L w c template (some []) = .error (.indexOutOfRange 0 0) ∧
      Container.Start L w c useinit (some []) = .error (.indexOutOfRange 0 0) ∧
      Container.Create L w c template none
        = .ok (L.container_create w c.container (CString template) none) ∧
      (∀ a args, Container.Create L w c template (some (a :: args))
        = .ok (L.container_create w c.container (CString template)
            (some (makeArgs (a :: args))))) :=
  ⟨rfl, rfl, rfl, fun _ _ => rfl⟩

/-- C5 fails on the code: the vector built by `makeArgs` has exactly
`len(args)` entries, none of them null, so a native reader looking for the
first null entry leaves the allocation; for `args = ["-d", "ubuntu"]` the
vector handed to `container_create` is the two entries `"-d"`, `"ubuntu"`
and nothing else. -/
theorem makeArgs_not_terminated (args : List GoStr) :
    (makeArgs args).length = args.length ∧
      none ∉ makeArgs args ∧
      readArgv (makeArgs args) = none ∧
      makeArgs [lit "-d", lit "ubuntu"]
        = [some (lit "-d" ++ [NUL]), some (lit "ubuntu" ++ [NUL])] ∧
      (∀ (L : Native W) (w : W) (c : Container) (template : GoStr),
        Container.Create L w c template (some [lit "-d", lit "ubuntu"])
          = .ok (L.container_create w c.container (CString template)
              (some [some (lit "-d" ++ [NUL]), some (lit "ubuntu" ++ [NUL])]))) := by
  refine ⟨by simp [makeArgs], by simp [makeArgs], ?_, rfl, fun _ _ _ _ => rfl⟩
  induction args with
  | nil => rfl
  | cons a as ih =>
    simp only [makeArgs, List.map_cons, readArgv] at ih ⊢
    rw [ih]
    rfl

/-! ## C6: the name of a new container -/

/-- C6: for a name without NUL byte, if the native library allocates the
container object and its `name` field holds the C string it was given, then
`NewContainer(name)` followed by `Name()` returns `name`. -/
theorem NewContainer_Name (L : Native W) (w : W) (name : GoStr) (a : Addr)
    (hnul : NUL ∉ name)
    (halloc : (L.lxc_container_new w (CString name)).1 = some a)
    (hstored : GoString (L.name (L.lxc_container_new w (CString name)).2 a)
      = cstr (CString name)) :
    Container.Name L (NewContainer L w name).2 (NewContainer L w name).1 = .ok name := by
  simp only [NewContainer, Container.Name, halloc, hstored]
  rw [cstr_CString name hnul]

/-- C6 on the sample library: the container made for `"test1"` is named
`"test1"`. -/
theorem NewContainer_Name_witness :
    NUL ∉ lit "test1" ∧
      (sim.lxc_container_new SimWorld.init (CString (lit "test1"))).1 = some 0 ∧
      Container.Name sim (NewContainer sim SimWorld.init (lit "test1")).2
        (NewContainer sim SimWorld.init (lit "test1")).1 = .ok (lit "test1") :=
  ⟨by decide, by decide,
    NewContainer_Name sim SimWorld.init (lit "test1") 0 (by decide) (by decide) (by decide)⟩

/-! ## C7: the stringer of `State` -/

/-- C7: when the nine native state constants are pairwise distinct,
`State.String` maps each of them to the string spelling its name, is
injective on them, and maps every other value to `"<INVALID>"`, which is
none of the nine names. -/
theorem State_String_exhaustive (K : StateConsts) (h : K.Distinct) :
    State.String K K.STOPPED = lit "STOPPED" ∧
      State.String K K.STARTING = lit "STARTING" ∧
      State.String K K.RUNNING = lit "RUNNING" ∧
      State.String K K.STOPPING = lit "STOPPING" ∧
      State.String K K.ABORTING = lit "ABORTING" ∧
      State.String K K.FREEZING = lit "FREEZING" ∧
      State.String K K.FROZEN = lit "FROZEN" ∧
      State.String K K.THAWED = lit "THAWED" ∧
      State.String K K.MAX_STATE = lit "MAX_STATE" ∧
      (∀ a ∈ K.known, ∀ b ∈ K.known, State.String K a = State.String K b → a = b) ∧
      (∀ t : State, t ∉ K.known → State.String K t = lit "<INVALID>") ∧
      lit "<INVALID>" ∉ stateNames := by
  have hd := h
  simp only [StateConsts.Distinct, List.pairwise_cons, List.mem_cons, List.mem_singleton,
    List.not_mem_nil, forall_eq_or_imp, forall_eq, ne_eq, IsEmpty.forall_iff, implies_true,
    List.Pairwise.nil, and_true] at hd
  obtain ⟨⟨h01, h02, h03, h04, h05, h06, h07, h08⟩, ⟨h12, h13, h14, h15, h16, h17, h18⟩,
    ⟨h23, h24, h25, h26, h27, h28⟩, ⟨h34, h35, h36, h37, h38⟩, ⟨h45, h46, h47, h48⟩,
    ⟨h56, h57, h58⟩, ⟨h67, h68⟩, h78⟩ := hd
  have e0 : State.String K K.STOPPED = lit "STOPPED" := by simp [State.String]
  have e1 : State.String K K.STARTING = lit "STARTING" := by
    simp [State.String, Ne.symm h01]
  have e2 : State.String K K.RUNNING = lit "RUNNING" := by
    simp [State.String, Ne.symm h02, Ne.symm h12]
  have e3 : State.String K K.STOPPING = lit "STOPPING" := by
    simp [State.String, Ne.symm h03, Ne.symm h13, Ne.symm h23]
  have e4 : State.String K K.ABORTING = lit "ABORTING" := by
    simp [State.String, Ne.symm h04, Ne.symm h14, Ne.symm h24, Ne.symm h34]
  have e5 : State.String K K.FREEZING = lit "FREEZING" := by
    simp [State.String, Ne.symm h05, Ne.symm h15, Ne.symm h25, Ne.symm h35, Ne.symm h45]
  have e6 : State.String K K.FROZEN = lit "FROZEN" := by
    simp [State.String, Ne.symm h06, Ne.symm h16, Ne.symm h26, Ne.symm h36, Ne.symm h46,
      Ne.symm h56]
  have e7 : State.String K K.THAWED = lit "THAWED" := by
    simp [State.String, Ne.symm h07, Ne.symm h17, Ne.symm h27, Ne.symm h37, Ne.symm h47,
      Ne.symm h57, Ne.symm h67]
  have e8 : State.String K K.MAX_STATE = lit "MAX_STATE" := by
    simp [State.String, Ne.symm h08, Ne.symm h18, Ne.symm h28, Ne.symm h38, Ne.symm h48,
      Ne.symm h58, Ne.symm h68, Ne.symm h78]
  have hmap : K.known.map (State.String K) = stateNames := by
    simp only [StateConsts.known, List.map_cons, List.map_nil, e0, e1, e2, e3, e4, e5, e6, e7,
      e8, stateNames]
  have hnodup : (K.known.map (State.String K)).Nodup := by
    rw [hmap]; decide
  refine ⟨e0, e1, e2, e3, e4, e5, e6, e7, e8, ?_, ?_, by decide⟩
  · intro a ha b hb hab
    exact List.inj_on_of_nodup_map hnodup ha hb hab
  · intro t ht
    simp only [StateConsts.known, List.mem_cons, List.mem_singleton, List.not_mem_nil,
      or_false, not_or] at ht
    obtain ⟨t0, t1, t2, t3, t4, t5, t6, t7, t8⟩ := ht
    simp [State.String, t0, t1, t2, t3, t4, t5, t6, t7, t8]

/-- C7 on the values of liblxc's header, which are pairwise distinct: the
value of `RUNNING` is printed as `"RUNNING"` and `42` as `"<INVALID>"`. -/
theorem State_String_exhaustive_witness :
    lxcStates.Distinct ∧ State.String lxcStates lxcStates.RUNNING = lit "RUNNING" ∧
      State.String lxcStates 42 = lit "<INVALID>" :=
  ⟨by decide, (State_String_exhaustive lxcStates (by decide)).2.2.1,
    (State_String_exhaustive lxcStates (by decide)).2.2.2.2.2.2.2.2.2.2.1 42 (by decide)⟩

/-! ## C8: the timeout handed to the native library -/

/-- C8, as stated, fails: `2^32` is a Go `int`, and for this timeout
`Shutdown` and `Wait` hand the C `int` `0` to the native library, as the
record of the sample library shows. -/
theorem Shutdown_Wait_timeout_counterexample :
    isGoInt (2 ^ 32) ∧
      (Container.Shutdown sim simHandle.2 simHandle.1 (2 ^ 32)).2.timeouts = [0] ∧
      (Container.Wait sim lxcStates simHandle.2 simHandle.1 lxcStates.RUNNING
        (2 ^ 32)).2.timeouts = [0] ∧
      (0 : Int) ≠ 2 ^ 32 := by
  decide

/-- C8, amended: for every timeout, `Shutdown(timeout)` and
`Wait(state, timeout)` hand `C.int(timeout)` to the native library and return
the native result; `C.int(timeout)` is the number in the range of the 32-bit
C `int` that agrees with `timeout` in its low 32 bits, so it is `timeout`
itself exactly when `-2^31 ≤ timeout < 2^31`, and for such a timeout the
native library receives a value numerically equal to `timeout`. -/
theorem Shutdown_Wait_timeout (L : Native W) (K : StateConsts) (w : W) (c : Container)
    (state : State) (timeout : Int) :
    Container.Shutdown L w c timeout = L.container_shutdown w c.container (C_int timeout) ∧
      Container.Wait L K w c state timeout
        = L.container_wait w c.container (CString (State.String K state)) (C_int timeout) ∧
      (-2 ^ 31 ≤ C_int timeout ∧ C_int timeout < 2 ^ 31) ∧
      C_int timeout % 2 ^ 32 = timeout % 2 ^ 32 ∧
      (C_int timeout = timeout ↔ (-2 ^ 31 ≤ timeout ∧ timeout < 2 ^ 31)) ∧
      ((-2 ^ 31 ≤ timeout ∧ timeout < 2 ^ 31) →
        Container.Shutdown L w c timeout = L.container_shutdown w c.container timeout ∧
        Container.Wait L K w c state timeout
          = L.container_wait w c.container (CString (State.String K state)) timeout) := by
  have hrange : -2 ^ 31 ≤ C_int timeout ∧ C_int timeout < 2 ^ 31 := by
    unfold C_int
    omega
  have hmod : C_int timeout % 2 ^ 32 = timeout % 2 ^ 32 := by
    unfold C_int
    omega
  have hiff : C_int timeout = timeout ↔ (-2 ^ 31 ≤ timeout ∧ timeout < 2 ^ 31) := by
    unfold C_int
    omega
  refine ⟨rfl, rfl, hrange, hmod, hiff, ?_⟩
  intro hin
  have hc : C_int timeout = timeout := hiff.2 hin
  simp only [Container.Shutdown, Container.Wait, hc, and_self]

/-- C8, amended, on the sample library: a timeout of `-1` reaches the native
library as `-1`. -/
theorem Shutdown_Wait_timeout_witness :
    (-2 ^ 31 ≤ (-1 : Int) ∧ (-1 : Int) < 2 ^ 31) ∧
      Container.Shutdown sim simHandle.2 simHandle.1 (-1)
        = sim.container_shutdown simHandle.2 simHandle.1.container (-1) :=
  ⟨by decide,
    ((Shutdown_Wait_timeout sim lxcStates simHandle.2 simHandle.1 lxcStates.RUNNING (-1)).2.2.2.2.2
      (by decide)).1⟩

/-! ## C9: the timeout sentinels -/

/-- C9 fails on the code: `WAIT_FOREVER` is `0` and `DONT_WAIT` is `1`; they
differ, but `DONT_WAIT` is a positive number of seconds, and `Wait` and
`Shutdown` with `DONT_WAIT` are the same call as with a timeout of one
second. -/
theorem DONT_WAIT_is_one_second (L : Native W) (K : StateConsts) (w : W) (c : Container)
    (state : State) :
    WAIT_FOREVER ≠ DONT_WAIT ∧ WAIT_FOREVER = 0 ∧ DONT_WAIT = 1 ∧ 0 < DONT_WAIT ∧
      Container.Wait L K w c state DONT_WAIT = Container.Wait L K w c state 1 ∧
      Container.Shutdown L w c DONT_WAIT = Container.Shutdown L w c 1 :=
  ⟨by decide, rfl, rfl, by decide, rfl, rfl⟩

/-! ## C10: the newline split is lossless -/

/-- C10: for every native result string `s`, the sequence returned by
`GetConfigItem` and by `GetKeys` has one element more than `s` has newlines,
no element contains a newline, and the elements joined by `"\n"` give `s`
back; a value without newline is returned as a one-element sequence holding
it, and a value ending in a newline yields a trailing empty string. -/
theorem GetConfigItem_GetKeys_lossless (L : Native W) (w : W) (c : Container) (key : GoStr) :
    LosslessSplit (GoString (L.container_get_config_item w c.container (CString key)).1)
        (Container.GetConfigItem L w c key).1 ∧
      LosslessSplit (GoString (L.container_get_keys w c.container (CString key)).1)
        (Container.GetKeys L w c key).1 :=
  ⟨Split_lossless _, Split_lossless _⟩

/-- C10 on the sample library: the value `"a\nb\n"` stored under `"k"` is
retrieved as a sequence whose last element is the empty string. -/
theorem GetConfigItem_GetKeys_lossless_witness :
    GoString (sim.container_get_config_item
        (Container.SetConfigItem sim simHandle.2 simHandle.1 (lit "k") (lit "a\nb\n")).2
        simHandle.1.container (CString (lit "k"))).1 = lit "a\nb" ++ [NL] ∧
      (Container.GetConfigItem sim
        (Container.SetConfigItem sim simHandle.2 simHandle.1 (lit "k") (lit "a\nb\n")).2
        simHandle.1 (lit "k")).1.getLast? = some [] :=
  ⟨by decide,
    (GetConfigItem_GetKeys_lossless sim
      (Container.SetConfigItem sim simHandle.2 simHandle.1 (lit "k") (lit "a\nb\n")).2
      simHandle.1 (lit "k")).1.2.2.2.2 (lit "a\nb") (by decide)⟩

end Lxc
